import Mathlib

/-!
Verification of `magenta/models/lookback_rnn/lookback_rnn_encoder_decoder.py`.

The module is a pure encoder/decoder between melody event sequences (integer
events: `-2` = no event, `-1` = note-off, non-negative MIDI pitch = note-on)
and fixed-width feature vectors / class labels for a lookback RNN.  The code
is 2016-era magenta, targeting Python 2: `/` on integers is floor division.

Melody events are embedded as `Int`, sequences as `List Int`, positions as
`Nat`.  The per-position input vector (a Python list of floats whose entries
are only ever `0.0`, `1.0` or `-1.0`) is embedded as a function `Nat → Int`
built from an all-zero function by a sequence of single-index writes, in the
same order the Python code performs them.
-/

/-- Modelled from the spec: `melodies_lib.NUM_SPECIAL_EVENTS`.  `melodies_lib`
is not part of the sources, but this module's own docstrings pin the value:
events `-2` (no event) and `-1` (note-off) are the two special events, mapped
to model events `0` and `1`, so `NUM_SPECIAL_EVENTS = 2`. -/
def NUM_SPECIAL_EVENTS : Int := 2

/-- Modelled from the spec: `melodies_lib.NO_EVENT`.  The module's docstrings
pin it: `-2 = no event`. -/
def NO_EVENT : Int := -2

/-- Modelled from the spec: `melodies_lib`'s note-off sentinel.  The module's
docstrings pin it: `-1 = note-off event`. -/
def NOTE_OFF : Int := -1

/-- Source constant `STEPS_PER_BAR = 16`: the code assumes melodies have 16 steps per bar. -/
def STEPS_PER_BAR : Nat := 16

/-- Source constant `MIN_NOTE = 48` (inclusive). -/
def MIN_NOTE : Int := 48

/-- Source constant `MAX_NOTE = 84` (exclusive). -/
def MAX_NOTE : Int := 84

/-- Source constant `LOOKBACK_DISTANCES = [STEPS_PER_BAR, STEPS_PER_BAR * 2]`, sorted ascending. -/
def LOOKBACK_DISTANCES : List Nat := [STEPS_PER_BAR, STEPS_PER_BAR * 2]

/-- Source constant `NUM_SPECIAL_INPUTS = 7`. -/
def NUM_SPECIAL_INPUTS : Int := 7

/-- Source constant `NUM_SPECIAL_LABELS = len(LOOKBACK_DISTANCES)`. -/
def NUM_SPECIAL_LABELS : Nat := LOOKBACK_DISTANCES.length

/-- Source constant `NUM_BINARY_TIME_COUNTERS = 5`. -/
def NUM_BINARY_TIME_COUNTERS : Nat := 5

/-- Derived field `num_model_events = max_note - min_note + NUM_SPECIAL_EVENTS`,
derived once in `__init__` from the note-range configuration. -/
def num_model_events (min_note max_note : Int) : Int :=
  max_note - min_note + NUM_SPECIAL_EVENTS

/-- Property `input_size`: `3 * self.num_model_events + NUM_SPECIAL_INPUTS`. -/
def input_size (min_note max_note : Int) : Int :=
  3 * num_model_events min_note max_note + NUM_SPECIAL_INPUTS

/-- Property `num_classes`: `self.num_model_events + NUM_SPECIAL_LABELS`. -/
def num_classes (min_note max_note : Int) : Int :=
  num_model_events min_note max_note + NUM_SPECIAL_LABELS

/-- Function `melody_event_to_model_event`: collapses a melody event into
`[0, num_model_events)`.  Negative sentinels map via `event + NUM_SPECIAL_EVENTS`,
pitches via `event - min_note + NUM_SPECIAL_EVENTS`. -/
def melody_event_to_model_event (min_note : Int) (melody_event : Int) : Int :=
  if melody_event < 0 then melody_event + NUM_SPECIAL_EVENTS
  else melody_event - min_note + NUM_SPECIAL_EVENTS

/-- Function `model_event_to_melody_event`: the inverse expansion.  Indices below
`NUM_SPECIAL_EVENTS` map to `index - NUM_SPECIAL_EVENTS` (sentinels), the rest
to `index - NUM_SPECIAL_EVENTS + min_note`. -/
def model_event_to_melody_event (min_note : Int) (model_event : Int) : Int :=
  if model_event < NUM_SPECIAL_EVENTS then model_event - NUM_SPECIAL_EVENTS
  else model_event - NUM_SPECIAL_EVENTS + min_note

/-- Read of `events[position]`.  Positions are assumed in bounds (a precondition of
the Python code); out-of-range reads are given the harmless default `0`. -/
def getEvent (events : List Int) (position : Nat) : Int :=
  events.getD position 0

/-- The concrete `num_model_events` of the module's fixed configuration
(`MIN_NOTE = 48`, `MAX_NOTE = 84`), as a `Nat` usable as a vector index. -/
def nmeN : Nat := (num_model_events MIN_NOTE MAX_NOTE).toNat

/-- A single Python list write `input_[idx] = val`, modelled as a function
update. -/
def setIdx (v : Nat → Int) (idx : Nat) (val : Int) : Nat → Int :=
  fun j => if j = idx then val else v j

/-- Function `events_to_input(events, position)`: builds the input vector (modelled as
`Nat → Int`) by, in order: one-hot of the current event; for each
`(i, lookback_distance)` the one-hot of the candidate next event at
`position - lookback_distance + 1` (no-event if that is negative) written at
index `i * num_model_events + model_event` (as the code does — its docstring
says `(i+1) * num_model_events`); the five binary time counters on
`n = position + 1` (Python 2: `/` floors); the per-distance repeat flags at
`3 * num_model_events + 5 + i`. -/
def events_to_input (events : List Int) (position : Nat) : Nat → Int :=
  LOOKBACK_DISTANCES.enum.foldl
    (fun acc p =>
      if 0 ≤ (position : Int) - p.2 ∧
          getEvent events position = getEvent events ((position : Int) - p.2).toNat then
        setIdx acc (3 * nmeN + 5 + p.1) 1
      else acc)
    ((List.range NUM_BINARY_TIME_COUNTERS).foldl
      (fun acc i =>
        setIdx acc (3 * nmeN + i)
          (if (position + 1) / 2 ^ i % 2 ≠ 0 then 1 else -1))
      (LOOKBACK_DISTANCES.enum.foldl
        (fun acc p =>
          setIdx acc
            (p.1 * nmeN +
              (melody_event_to_model_event MIN_NOTE
                (if (position : Int) - p.2 + 1 < 0 then NO_EVENT
                 else getEvent events ((position : Int) - p.2 + 1).toNat)).toNat)
            1)
        (setIdx (fun _ => 0)
          (melody_event_to_model_event MIN_NOTE (getEvent events position)).toNat 1)))

/-- Function `events_to_label(events, position)`: the special insufficient-history
branch, then the reversed scan over lookback distances, then the literal
event. -/
def events_to_label (events : List Int) (position : Nat) : Int :=
  if position < LOOKBACK_DISTANCES.getLastD 0 ∧ getEvent events position = NO_EVENT then
    num_model_events MIN_NOTE MAX_NOTE + LOOKBACK_DISTANCES.length - 1
  else
    match LOOKBACK_DISTANCES.enum.reverse.findSome?
        (fun p =>
          if 0 ≤ (position : Int) - p.2 ∧
              getEvent events position = getEvent events ((position : Int) - p.2).toNat then
            some (num_model_events MIN_NOTE MAX_NOTE + p.1)
          else none) with
    | some label => label
    | none => melody_event_to_model_event MIN_NOTE (getEvent events position)

/-- Function `class_index_to_event(class_index, events)`: reversed scan over lookback
distances; a reserved repeat index returns `NO_EVENT` on insufficient history
and `events[-lookback_distance]` otherwise; any other index is expanded as a
literal model event. -/
def class_index_to_event (class_index : Int) (events : List Int) : Int :=
  match LOOKBACK_DISTANCES.enum.reverse.findSome?
      (fun p =>
        if class_index = num_model_events MIN_NOTE MAX_NOTE + p.1 then
          some (if events.length < p.2 then NO_EVENT
                else getEvent events (events.length - p.2))
        else none) with
  | some e => e
  | none => model_event_to_melody_event MIN_NOTE class_index

lemma nme_val : num_model_events MIN_NOTE MAX_NOTE = 38 := by decide

lemma nmeN_val : nmeN = 38 := by decide

lemma enum_lookbacks : LOOKBACK_DISTANCES.enum = [(0, 16), (1, 32)] := by decide

lemma enum_rev_lookbacks :
    LOOKBACK_DISTANCES.enum.reverse = [(1, 32), (0, 16)] := by decide

/-- Round-trip of the event/model-event reindexing over the configured domain. -/
lemma roundtrip_domain (e : Int)
    (he : e = NO_EVENT ∨ e = NOTE_OFF ∨ (MIN_NOTE ≤ e ∧ e < MAX_NOTE)) :
    model_event_to_melody_event MIN_NOTE (melody_event_to_model_event MIN_NOTE e) = e := by
  rcases he with h | h | ⟨h1, h2⟩
  · subst h; decide
  · subst h; decide
  · simp only [melody_event_to_model_event, model_event_to_melody_event,
      NUM_SPECIAL_EVENTS, MIN_NOTE, MAX_NOTE] at *
    split <;> split <;> omega

/-- The model event of a domain event lies in `[0, num_model_events)`. -/
lemma model_event_range (e : Int)
    (he : e = NO_EVENT ∨ e = NOTE_OFF ∨ (MIN_NOTE ≤ e ∧ e < MAX_NOTE)) :
    0 ≤ melody_event_to_model_event MIN_NOTE e ∧
      melody_event_to_model_event MIN_NOTE e < num_model_events MIN_NOTE MAX_NOTE := by
  rcases he with h | h | ⟨h1, h2⟩
  · subst h; decide
  · subst h; decide
  · simp only [melody_event_to_model_event, num_model_events,
      NUM_SPECIAL_EVENTS, MIN_NOTE, MAX_NOTE] at *
    split <;> omega

/-- Claim C7: for every pitch `p` with `MIN_NOTE ≤ p < MAX_NOTE`,
`model_event_to_melody_event (melody_event_to_model_event p) = p`, and the
same round-trip identity holds for the two negative sentinels. -/
theorem model_event_roundtrip :
    (∀ p : Int, MIN_NOTE ≤ p → p < MAX_NOTE →
      model_event_to_melody_event MIN_NOTE (melody_event_to_model_event MIN_NOTE p) = p) ∧
    model_event_to_melody_event MIN_NOTE (melody_event_to_model_event MIN_NOTE NO_EVENT) =
      NO_EVENT ∧
    model_event_to_melody_event MIN_NOTE (melody_event_to_model_event MIN_NOTE NOTE_OFF) =
      NOTE_OFF := by
  refine ⟨fun p h1 h2 => roundtrip_domain p (Or.inr (Or.inr ⟨h1, h2⟩)), ?_, ?_⟩
  · exact roundtrip_domain NO_EVENT (Or.inl rfl)
  · exact roundtrip_domain NOTE_OFF (Or.inr (Or.inl rfl))

/-- Witness for C7 at the concrete pitch `60`. -/
theorem model_event_roundtrip_witness :
    model_event_to_melody_event MIN_NOTE (melody_event_to_model_event MIN_NOTE 60) = 60 :=
  model_event_roundtrip.1 60 (by decide) (by decide)

/-- Claim C8: for any valid note-range configuration, `input_size` equals
`3 * num_model_events + 7` and `num_classes` equals
`num_model_events + len(LOOKBACK_DISTANCES)`, with
`num_model_events = max_note - min_note + 2`. -/
theorem sizes_formula (min_note max_note : Int) (h : min_note < max_note) :
    input_size min_note max_note = 3 * (max_note - min_note + 2) + 7 ∧
    num_classes min_note max_note =
      (max_note - min_note + 2) + (LOOKBACK_DISTANCES.length : Int) := by
  constructor
  · simp only [input_size, num_model_events, NUM_SPECIAL_EVENTS, NUM_SPECIAL_INPUTS]
  · simp only [num_classes, num_model_events, NUM_SPECIAL_EVENTS, NUM_SPECIAL_LABELS]

/-- Witness for C8 at the module's configuration `MIN_NOTE = 48`, `MAX_NOTE = 84`. -/
theorem sizes_formula_witness :
    input_size 48 84 = 3 * (84 - 48 + 2) + 7 ∧
    num_classes 48 84 = (84 - 48 + 2) + (LOOKBACK_DISTANCES.length : Int) :=
  sizes_formula 48 84 (by decide)

/-- Claim C3: at a position strictly before the largest lookback distance
whose event is the no-event sentinel, `events_to_label` returns the reserved
index for the largest lookback distance, regardless of any smaller-distance
match. -/
theorem label_no_event_special (events : List Int) (pos : Nat)
    (h1 : pos < LOOKBACK_DISTANCES.getLastD 0)
    (h2 : getEvent events pos = NO_EVENT) :
    events_to_label events pos =
      num_model_events MIN_NOTE MAX_NOTE + LOOKBACK_DISTANCES.length - 1 := by
  unfold events_to_label
  rw [if_pos ⟨h1, h2⟩]

/-- Witness for C3: all-no-event melody, position 16 (which also matches the
1-bar lookback, yet the reserved 2-bar index is returned). -/
theorem label_no_event_special_witness :
    events_to_label (List.replicate 17 (-2)) 16 =
      num_model_events MIN_NOTE MAX_NOTE + LOOKBACK_DISTANCES.length - 1 :=
  label_no_event_special (List.replicate 17 (-2)) 16 (by decide) (by decide)

/-- Claim C2: with at least 32 steps of history, when the current event
matches both 16 and 32 steps back, `events_to_label` returns the 2-bar class
`num_model_events + 1`: the scan goes from the largest distance down. -/
theorem label_most_distant_wins (events : List Int) (pos : Nat)
    (h32 : 32 ≤ pos)
    (e16 : getEvent events pos = getEvent events (pos - 16))
    (e32 : getEvent events pos = getEvent events (pos - 32)) :
    events_to_label events pos = num_model_events MIN_NOTE MAX_NOTE + 1 := by
  have hlast : LOOKBACK_DISTANCES.getLastD 0 = 32 := by decide
  have ht : ((pos : Int) - (32 : Nat)).toNat = pos - 32 := by omega
  unfold events_to_label
  rw [if_neg (by rw [hlast]; omega)]
  rw [enum_rev_lookbacks, List.findSome?_cons,
    if_pos ⟨by push_cast; omega, ht ▸ e32⟩]
  norm_num

/-- Witness for C2: a constant melody of length 33 at position 32. -/
theorem label_most_distant_wins_witness :
    events_to_label (List.replicate 33 (-1)) 32 =
      num_model_events MIN_NOTE MAX_NOTE + 1 :=
  label_most_distant_wins (List.replicate 33 (-1)) 32 (by decide) (by decide) (by decide)

/-- Claim C10: a class index in `[0, num_model_events)` decodes as
`model_event_to_melody_event` of itself, without reading the history: any two
histories give the same result. -/
theorem literal_class_ignores_history (ci : Int)
    (h0 : 0 ≤ ci) (h1 : ci < num_model_events MIN_NOTE MAX_NOTE) :
    (∀ history : List Int,
      class_index_to_event ci history = model_event_to_melody_event MIN_NOTE ci) ∧
    ∀ history1 history2 : List Int,
      class_index_to_event ci history1 = class_index_to_event ci history2 := by
  have key : ∀ history : List Int,
      class_index_to_event ci history = model_event_to_melody_event MIN_NOTE ci := by
    intro history
    rw [nme_val] at h1
    unfold class_index_to_event
    rw [enum_rev_lookbacks, List.findSome?_cons,
      if_neg (by rw [nme_val]; push_cast; omega)]
    rw [List.findSome?_cons, if_neg (by rw [nme_val]; push_cast; omega),
      List.findSome?_nil]
  exact ⟨key, fun history1 history2 => (key history1).trans (key history2).symm⟩

/-- Witness for C10: class index 0 decoded against two different histories. -/
theorem literal_class_ignores_history_witness :
    class_index_to_event 0 [] = model_event_to_melody_event MIN_NOTE 0 ∧
    class_index_to_event 0 [] = class_index_to_event 0 [60] :=
  ⟨(literal_class_ignores_history 0 (by decide) (by decide)).1 [],
   (literal_class_ignores_history 0 (by decide) (by decide)).2 [] [60]⟩

/-- Claim C5: a reserved repeat class `num_model_events + i` for distance
`d = LOOKBACK_DISTANCES[i]` decodes to `NO_EVENT` when the history is shorter
than `d` and to the history element exactly `d` steps before the end
otherwise; in particular, when `events_to_label` selected that class at `pos`
and the length-`pos` generated history reaches back `d` steps, the decode
reproduces `events[pos - d]`. -/
theorem repeat_class_decodes (i : Nat) (hi : i < LOOKBACK_DISTANCES.length) :
    (∀ history : List Int,
      class_index_to_event (num_model_events MIN_NOTE MAX_NOTE + i) history =
        if history.length < LOOKBACK_DISTANCES.getD i 0 then NO_EVENT
        else getEvent history (history.length - LOOKBACK_DISTANCES.getD i 0)) ∧
    (∀ events : List Int, ∀ pos : Nat,
      events_to_label events pos = num_model_events MIN_NOTE MAX_NOTE + i →
      LOOKBACK_DISTANCES.getD i 0 ≤ pos → pos ≤ events.length →
      class_index_to_event (num_model_events MIN_NOTE MAX_NOTE + i) (events.take pos) =
        getEvent events (pos - LOOKBACK_DISTANCES.getD i 0)) := by
  have hi2 : i < 2 := by simpa [LOOKBACK_DISTANCES, STEPS_PER_BAR] using hi
  have key : ∀ history : List Int,
      class_index_to_event (num_model_events MIN_NOTE MAX_NOTE + i) history =
        if history.length < LOOKBACK_DISTANCES.getD i 0 then NO_EVENT
        else getEvent history (history.length - LOOKBACK_DISTANCES.getD i 0) := by
    intro history
    unfold class_index_to_event
    rw [enum_rev_lookbacks]
    interval_cases i
    · rw [List.findSome?_cons, if_neg (by decide),
        List.findSome?_cons, if_pos (by decide)]
      norm_num [LOOKBACK_DISTANCES, STEPS_PER_BAR]
    · rw [List.findSome?_cons, if_pos (by decide)]
      norm_num [LOOKBACK_DISTANCES, STEPS_PER_BAR]
  refine ⟨key, fun events pos _hl hd hlen => ?_⟩
  rw [key]
  have hd0 : 0 < LOOKBACK_DISTANCES.getD i 0 := by interval_cases i <;> decide
  have hlt : (events.take pos).length = pos := by rw [List.length_take]; omega
  rw [hlt, if_neg (by omega)]
  unfold getEvent
  have harg : pos - LOOKBACK_DISTANCES.getD i 0 < pos := by omega
  rw [List.getD_eq_getElem?_getD (List.take pos events), List.getElem?_take,
    if_pos harg, ← List.getD_eq_getElem?_getD]

/-- Witness for C5: the 2-bar class index decoded against an empty history
gives the no-event sentinel. -/
theorem repeat_class_decodes_witness :
    class_index_to_event (num_model_events MIN_NOTE MAX_NOTE + 1) [] = NO_EVENT :=
  ((repeat_class_decodes 1 (by decide)).1 []).trans (by decide)

/-- Claim C6: at a branch-3 position (no insufficient-history special case,
no lookback match) with in-domain events, decoding the label against the
prefix through `pos` reproduces the literal event. -/
theorem literal_label_roundtrip (events : List Int) (pos : Nat)
    (hdom : ∀ e ∈ events, e = NO_EVENT ∨ e = NOTE_OFF ∨ (MIN_NOTE ≤ e ∧ e < MAX_NOTE))
    (hpos : pos < events.length)
    (hspecial : ¬(pos < LOOKBACK_DISTANCES.getLastD 0 ∧ getEvent events pos = NO_EVENT))
    (hm16 : ¬(16 ≤ pos ∧ getEvent events pos = getEvent events (pos - 16)))
    (hm32 : ¬(32 ≤ pos ∧ getEvent events pos = getEvent events (pos - 32))) :
    class_index_to_event (events_to_label events pos) (events.take (pos + 1)) =
      getEvent events pos := by
  have hmem : getEvent events pos ∈ events := by
    unfold getEvent
    rw [List.getD_eq_getElem?_getD, List.getElem?_eq_getElem hpos]
    exact List.getElem_mem hpos
  have hdome := hdom _ hmem
  have hlabel : events_to_label events pos =
      melody_event_to_model_event MIN_NOTE (getEvent events pos) := by
    unfold events_to_label
    rw [if_neg hspecial, enum_rev_lookbacks]
    rw [List.findSome?_cons, if_neg ?h32, List.findSome?_cons, if_neg ?h16,
      List.findSome?_nil]
    case h32 =>
      rintro ⟨ha, hb⟩
      refine hm32 ⟨by omega, ?_⟩
      rwa [show ((pos : Int) - ((32 : Nat) : Int)).toNat = pos - 32 by omega] at hb
    case h16 =>
      rintro ⟨ha, hb⟩
      refine hm16 ⟨by omega, ?_⟩
      rwa [show ((pos : Int) - ((16 : Nat) : Int)).toNat = pos - 16 by omega] at hb
  rw [hlabel]
  obtain ⟨hge, hlt⟩ := model_event_range _ hdome
  unfold class_index_to_event
  rw [enum_rev_lookbacks]
  rw [List.findSome?_cons, if_neg (by push_cast; omega),
    List.findSome?_cons, if_neg (by push_cast; omega), List.findSome?_nil]
  exact roundtrip_domain _ hdome

/-- Witness for C6: the single-note melody `[60]` at position 0. -/
theorem literal_label_roundtrip_witness :
    class_index_to_event (events_to_label [60] 0) (List.take (0 + 1) [60]) =
      getEvent [60] 0 :=
  literal_label_roundtrip [60] 0 (by decide) (by decide) (by decide) (by decide) (by decide)

lemma range_counters : List.range NUM_BINARY_TIME_COUNTERS = [0, 1, 2, 3, 4] := by decide

/-- Claim C4: counter entry `i` of the input vector (index
`3 * num_model_events + i`, `i < 5`) is `+1` exactly when bit `i` of
`position + 1` is set, and `-1` otherwise. -/
theorem counters_encode_bits (events : List Int) (position : Nat) (i : Nat)
    (hi : i < NUM_BINARY_TIME_COUNTERS) :
    events_to_input events position (3 * nmeN + i) =
      if Nat.testBit (position + 1) i then 1 else -1 := by
  have hbit : ∀ k : Nat,
      (if (position + 1) / 2 ^ k % 2 ≠ 0 then (1 : Int) else -1) =
        if Nat.testBit (position + 1) k then 1 else -1 := by
    intro k
    rw [Nat.testBit_to_div_mod]
    rcases Nat.mod_two_eq_zero_or_one ((position + 1) / 2 ^ k) with h | h <;> simp [h]
  have hi5 : i < 5 := hi
  unfold events_to_input
  rw [enum_lookbacks, range_counters]
  simp only [List.foldl_cons, List.foldl_nil]
  simp only [hbit]
  interval_cases i <;>
    · simp only [setIdx, ite_apply, nmeN_val]
      norm_num

/-- Witness for C4: for `position + 1 = 5` the five counter entries are
`[+1, -1, +1, -1, -1]`. -/
theorem counters_encode_bits_witness :
    events_to_input (List.replicate 5 (-2)) 4 (3 * nmeN + 0) = 1 ∧
    events_to_input (List.replicate 5 (-2)) 4 (3 * nmeN + 1) = -1 ∧
    events_to_input (List.replicate 5 (-2)) 4 (3 * nmeN + 2) = 1 ∧
    events_to_input (List.replicate 5 (-2)) 4 (3 * nmeN + 3) = -1 ∧
    events_to_input (List.replicate 5 (-2)) 4 (3 * nmeN + 4) = -1 :=
  ⟨(counters_encode_bits (List.replicate 5 (-2)) 4 0 (by decide)).trans (by decide),
   (counters_encode_bits (List.replicate 5 (-2)) 4 1 (by decide)).trans (by decide),
   (counters_encode_bits (List.replicate 5 (-2)) 4 2 (by decide)).trans (by decide),
   (counters_encode_bits (List.replicate 5 (-2)) 4 3 (by decide)).trans (by decide),
   (counters_encode_bits (List.replicate 5 (-2)) 4 4 (by decide)).trans (by decide)⟩

/-- Claim C9: the input vector at a position depends only on the events at
indices `0` through `position`: sequences agreeing there give identical
vectors. -/
theorem input_depends_only_on_past (e1 e2 : List Int) (position : Nat)
    (h : ∀ k, k ≤ position → getEvent e1 k = getEvent e2 k) :
    events_to_input e1 position = events_to_input e2 position := by
  have hp : getEvent e1 position = getEvent e2 position := h position le_rfl
  have h15 : getEvent e1 ((position : Int) - (16 : Nat) + 1).toNat =
      getEvent e2 ((position : Int) - (16 : Nat) + 1).toNat := h _ (by omega)
  have h31 : getEvent e1 ((position : Int) - (32 : Nat) + 1).toNat =
      getEvent e2 ((position : Int) - (32 : Nat) + 1).toNat := h _ (by omega)
  have h16 : getEvent e1 ((position : Int) - (16 : Nat)).toNat =
      getEvent e2 ((position : Int) - (16 : Nat)).toNat := h _ (by omega)
  have h32 : getEvent e1 ((position : Int) - (32 : Nat)).toNat =
      getEvent e2 ((position : Int) - (32 : Nat)).toNat := h _ (by omega)
  unfold events_to_input
  rw [enum_lookbacks]
  simp only [List.foldl_cons, List.foldl_nil, hp, h15, h31, h16, h32]

/-- Witness for C9: two melodies agreeing at index 0 but differing at index 1
give the same vector at position 0. -/
theorem input_depends_only_on_past_witness :
    events_to_input [-2, -2] 0 = events_to_input [-2, 60] 0 :=
  input_depends_only_on_past [-2, -2] [-2, 60] 0
    (fun k hk => by
      have hk0 : k = 0 := Nat.le_zero.mp hk
      subst hk0
      rfl)

/-- The melody exhibiting the misplaced lookback one-hot: 15 note-off steps
followed by the pitch 48, examined at position 15 (so the 1-bar candidate is
the note-off at index 0 and the 2-bar candidate is the no-event sentinel). -/
def exC1 : List Int := List.replicate 15 (-1) ++ [48]

/-- Claim C1 evaluation at `exC1`, position 15: the 1-bar candidate
(model event 1) and 2-bar candidate (model event 0) are NOT one-hot in the
blocks `[(i+1)*num_model_events, (i+2)*num_model_events)` the claim (and the
function's own docstring) assign them — indices `1*38 + 1 = 39` and
`2*38 + 0 = 76` stay `0` — because the code writes them at
`i * num_model_events + model_event`: index `0*38 + 1 = 1`, inside the
current-event block `[0, 38)`, and index `1*38 + 0 = 38`. -/
theorem lookback_onehot_misplaced :
    events_to_input exC1 15 ((0 + 1) * nmeN + 1) = 0 ∧
    events_to_input exC1 15 ((1 + 1) * nmeN + 0) = 0 ∧
    events_to_input exC1 15 (0 * nmeN + 1) = 1 ∧
    events_to_input exC1 15 (1 * nmeN + 0) = 1 := by decide
